import Mathlib

/-!
Shallow embedding of `src/index.ts` of `autoduo-backend`: a push-2FA
auto-approval agent.  The embedding covers the request signer
(`generateSignature`), the challenge-list and challenge-answer requests
(`getTransactions`, `reply_transaction`), the activation-code parser
(`parseCode`), the activation status check in `newAccount`, the cron tick
that polls every account, and the `/add_account` HTTP handler.

JavaScript runtime behaviour is modelled explicitly:
* `URLSearchParams.toString()` is the `application/x-www-form-urlencoded`
  serializer over the parameter list in insertion order;
* `Buffer.from(s, "base64")` is a lenient decoder: decoding stops at the
  first `=` and every other character outside the base64 alphabet is
  ignored, never an error;
* `buffer.toString("ascii")` masks every byte to 7 bits;
* `s.split("-")` splits on every dash; destructuring `[c, h]` takes the
  first two fragments, and a missing second fragment is a thrown
  `TypeError` (modelled as `Except.error`).
-/

namespace AutoDuo

/-- The base64 alphabet, as a function from a 6-bit value to its digit. -/
def b64Char (n : Nat) : Char :=
  if n < 26 then Char.ofNat (65 + n)
  else if n < 52 then Char.ofNat (97 + (n - 26))
  else if n < 62 then Char.ofNat (48 + (n - 52))
  else if n = 62 then '+'
  else '/'

/-- Inverse lookup into the base64 alphabet; `none` for a character outside it. -/
def b64Lookup (c : Char) : Option Nat :=
  let n := c.toNat
  if 65 ≤ n ∧ n ≤ 90 then some (n - 65)
  else if 97 ≤ n ∧ n ≤ 122 then some (n - 97 + 26)
  else if 48 ≤ n ∧ n ≤ 57 then some (n - 48 + 52)
  else if c = '+' then some 62
  else if c = '/' then some 63
  else none

/-- Standard base64 encoding (with `=` padding) of a byte list. -/
def encodeB64 : List Nat → List Char
  | [] => []
  | [b1] => [b64Char (b1 / 4), b64Char (b1 % 4 * 16), '=', '=']
  | [b1, b2] => [b64Char (b1 / 4), b64Char (b1 % 4 * 16 + b2 / 16), b64Char (b2 % 16 * 4), '=']
  | b1 :: b2 :: b3 :: rest =>
      b64Char (b1 / 4) :: b64Char (b1 % 4 * 16 + b2 / 16) ::
      b64Char (b2 % 16 * 4 + b3 / 64) :: b64Char (b3 % 64) :: encodeB64 rest

/-- Collect the 6-bit values of a character stream the way Node's lenient
base64 decoder does: stop at the first `=`, skip other invalid characters. -/
def collectVals : List Char → List Nat
  | [] => []
  | c :: rest =>
      if c = '=' then []
      else
        match b64Lookup c with
        | some v => v :: collectVals rest
        | none => collectVals rest

/-- Reassemble bytes from a list of 6-bit values (groups of four; a trailing
group of two or three values yields one or two bytes, a lone value nothing). -/
def decodeVals : List Nat → List Nat
  | [] => []
  | [_] => []
  | [a, b] => [a * 4 + b / 16]
  | [a, b, c] => [a * 4 + b / 16, b % 16 * 16 + c / 4]
  | a :: b :: c :: d :: rest =>
      (a * 4 + b / 16) :: (b % 16 * 16 + c / 4) :: (c % 4 * 64 + d) :: decodeVals rest

/-- `Buffer.from(s, "base64")`: lenient decode of a character stream to bytes. -/
def decodeB64 (cs : List Char) : List Nat :=
  decodeVals (collectVals cs)

/-- Strip all trailing `=` padding characters (what upstream formatting does
to the host token before it reaches `parseCode`). -/
def stripPad (l : List Char) : List Char :=
  (l.reverse.dropWhile (· = '=')).reverse

/-- The padding restoration of `parseCode` (`src/index.ts` lines 138-141):
if the length is not a multiple of 4, append `=` up to the next multiple. -/
def padRestore (l : List Char) : List Char :=
  let m := l.length % 4
  if m = 0 then l else l ++ List.replicate (4 - m) '='

/-- Base64 encoding without the `=` padding characters (the shape of a
padding-stripped host token). -/
def encodeNoPad : List Nat → List Char
  | [] => []
  | [b1] => [b64Char (b1 / 4), b64Char (b1 % 4 * 16)]
  | [b1, b2] => [b64Char (b1 / 4), b64Char (b1 % 4 * 16 + b2 / 16), b64Char (b2 % 16 * 4)]
  | b1 :: b2 :: b3 :: rest =>
      b64Char (b1 / 4) :: b64Char (b1 % 4 * 16 + b2 / 16) ::
      b64Char (b2 % 16 * 4 + b3 / 64) :: b64Char (b3 % 64) :: encodeNoPad rest

/-- `code.split("-")`: split a character list at every dash.  Always returns at
least one fragment, exactly as the JavaScript `String.prototype.split`. -/
def splitDash : List Char → List (List Char)
  | [] => [[]]
  | c :: rest =>
      if c = '-' then [] :: splitDash rest
      else
        match splitDash rest with
        | [] => [[c]]
        | g :: gs => (c :: g) :: gs

/-- `x.replaceAll("<", "").replaceAll(">", "")`: drop every angle bracket. -/
def stripAngles (l : List Char) : List Char :=
  l.filter (fun c => !(c = '<' || c = '>'))

/-- `buffer.toString("ascii")`: each byte is masked to 7 bits and read as a
character. -/
def asciiOfBytes (bs : List Nat) : String :=
  ⟨bs.map (fun b => Char.ofNat (b % 128))⟩

/-- `parseCode` (`src/index.ts` lines 136-143): split the activation code at
`-`, strip angle brackets, restore base64 padding on the host token and decode
it leniently to an ASCII host name.  A code without a dash destructures the
host token to `undefined`, so reading `.length` from it throws a `TypeError`,
modelled as `Except.error`. -/
def parseCode (code : String) : Except String (String × String) :=
  match (splitDash code.data).map stripAngles with
  | [] => .error "TypeError: split returned nothing"
  | [_] => .error "TypeError: cannot read length of undefined"
  | c :: h :: _ => .ok (⟨c⟩, asciiOfBytes (decodeB64 (padRestore h)))

/-- The host token of an activation code for host `s`: the base64 encoding of
`s` with the trailing `=` padding characters stripped by upstream formatting. -/
def hostToken (s : String) : String :=
  ⟨stripPad (encodeB64 (s.data.map Char.toNat))⟩

/-! ## Request signer (`generateSignature`, lines 45-54) -/

/-- UTF-8 bytes of one character. -/
def utf8Bytes (c : Char) : List Nat :=
  let n := c.toNat
  if n < 128 then [n]
  else if n < 2048 then [192 + n / 64, 128 + n % 64]
  else if n < 65536 then [224 + n / 4096, 128 + n / 64 % 64, 128 + n % 64]
  else [240 + n / 262144, 128 + n / 4096 % 64, 128 + n / 64 % 64, 128 + n % 64]

/-- UTF-8 byte stream of a string. -/
def strBytes (s : String) : List Nat :=
  s.data.flatMap utf8Bytes

/-- Uppercase hexadecimal digit for a value below 16. -/
def hexDigit (n : Nat) : Char :=
  if n < 10 then Char.ofNat (48 + n) else Char.ofNat (55 + n)

/-- One byte under the `application/x-www-form-urlencoded` serializer used by
`URLSearchParams.toString()`: ASCII alphanumerics and `*`, `-`, `.`, `_` pass
through, a space becomes `+`, every other byte becomes `%XX`. -/
def formEncodeByte (b : Nat) : List Char :=
  if (48 ≤ b ∧ b ≤ 57) ∨ (65 ≤ b ∧ b ≤ 90) ∨ (97 ≤ b ∧ b ≤ 122)
      ∨ b = 42 ∨ b = 45 ∨ b = 46 ∨ b = 95 then [Char.ofNat b]
  else if b = 32 then ['+']
  else ['%', hexDigit (b / 16 % 16), hexDigit (b % 16)]

/-- `application/x-www-form-urlencoded` percent-encoding of one string. -/
def formEncode (s : String) : String :=
  ⟨(strBytes s).flatMap formEncodeByte⟩

/-- `new URLSearchParams(data).toString()`: the parameters in insertion order,
each key and value percent-encoded, joined `k=v` with `&`. -/
def serializeParams (ps : List (String × String)) : String :=
  String.intercalate "&" (ps.map fun p => formEncode p.1 ++ "=" ++ formEncode p.2)

/-- The `Account` record (`src/index.ts` lines 7-15).  The opaque `json` blob
is not needed by any claim and is omitted; the six string fields are kept. -/
structure Account where
  uid : String
  key : String
  akey : String
  pkey : String
  code : String
  host : String
deriving Repr, DecidableEq

/-- `c.toLowerCase()` on one character: ASCII uppercase letters are shifted to
lowercase, everything else is unchanged (the hosts at issue are ASCII DNS
names). -/
def toLowerChar (c : Char) : Char :=
  if 65 ≤ c.toNat ∧ c.toNat ≤ 90 then Char.ofNat (c.toNat + 32) else c

/-- `s.toLowerCase()` over a whole string. -/
def lowerString (s : String) : String :=
  ⟨s.data.map toLowerChar⟩

/-- The canonical message of `generateSignature` (lines 46-50): the template
literal joining timestamp, method (exactly as passed), lower-cased host, path
and the url-encoded parameter set with newlines. -/
def canonicalMessage (account : Account) (method path time : String)
    (data : List (String × String)) : String :=
  time ++ "\n" ++ method ++ "\n" ++ lowerString account.host ++ "\n" ++ path ++ "\n"
    ++ serializeParams data

/-- `Buffer.from(bytes).toString("base64")`. -/
def b64OfBytes (bs : List Nat) : String :=
  ⟨encodeB64 bs⟩

/-- `Buffer.from(str).toString("base64")` (UTF-8 bytes of the string). -/
def b64OfString (s : String) : String :=
  b64OfBytes (strBytes s)

/-- `generateSignature` (lines 45-54).  The RSASSA-PKCS1-v1_5/SHA-512
primitive is passed in as a function `rsaSign` from the private key PEM and
the canonical message to the signature bytes; being a function, it is
deterministic, which is exactly the property of PKCS#1 v1.5 signatures the
spec relies on.  The result is
`Basic base64(pkey + ":" + base64(signatureBytes))`. -/
def generateSignature (rsaSign : String → String → List Nat) (account : Account)
    (method path time : String) (data : List (String × String)) : String :=
  "Basic " ++ b64OfString
    (account.pkey ++ ":" ++ b64OfBytes (rsaSign account.key (canonicalMessage account method path time data)))

/-! ## The two signed device requests (lines 56-84) -/

/-- Parameter set of `getTransactions` (line 59), in insertion order. -/
def txParams (a : Account) : List (String × String) :=
  [("akey", a.akey), ("fips_status", "1"), ("hsm_status", "true"), ("pkpush", "rsa-sha512")]

/-- Fixed path of the challenge-list request (line 58). -/
def txPath : String := "/push/v2/device/transactions"

/-- URL of the challenge-list request actually sent (line 61). -/
def getTransactionsUrl (a : Account) : String :=
  "https://" ++ a.host ++ txPath ++ "?" ++ serializeParams (txParams a)

/-- Parameter set of `reply_transaction` (lines 74-77), in insertion order. -/
def replyParams (a : Account) (answer : String) : List (String × String) :=
  [("akey", a.akey), ("answer", answer), ("fips_status", "1"), ("hsm_status", "true"),
    ("pkpush", "rsa-sha512")]

/-- Per-challenge path of the answer request (line 73). -/
def replyPath (transaction_id : String) : String :=
  "/push/v2/device/transactions/" ++ transaction_id

/-- URL of the answer-challenge request actually sent (line 79). -/
def replyUrl (a : Account) (transaction_id answer : String) : String :=
  "https://" ++ a.host ++ replyPath transaction_id ++ "?" ++ serializeParams (replyParams a answer)

/-- A concrete account used to evaluate the signer on the spec's example
inputs. -/
def exampleAccount : Account :=
  { uid := "user-1", key := "KEYPEM", akey := "AK1", pkey := "PKEY",
    code := "CODE", host := "API-HOST.example.com" }

/-- The fields of the decoded activation reply that the status check in
`newAccount` (lines 102-104) can observe: the `stat` key it actually reads,
the `message` key interpolated into the thrown error, and the `status` key
that the service reply of the claim carries but the code never reads. -/
structure ActivationReply where
  status : Option String
  stat : Option String
  message : Option String
deriving Repr, DecidableEq

/-- JavaScript template-literal interpolation of a possibly-absent field:
an absent field prints as `undefined`. -/
def jsInterp : Option String → String
  | none => "undefined"
  | some s => s

/-- The activation status check of `newAccount` (lines 102-104): unless the
reply's `stat` field is exactly `"OK"`, throw
`Failed to activate account: ${json.message}`. -/
def newAccountStatusCheck (json : ActivationReply) : Except String Unit :=
  if json.stat ≠ some "OK" then
    Except.error ("Failed to activate account: " ++ jsInterp json.message)
  else
    Except.ok ()

/-- The service reply of the claim: `{"status":"FAIL","message":"invalid code"}`. -/
def failReply : ActivationReply :=
  { status := some "FAIL", stat := none, message := some "invalid code" }

/-! ## Transport model for the poll/approve loop (lines 56-84, 158-172) -/

/-- An outbound request as `getTransactions`/`reply_transaction` build it:
URL, `Authorization` header, `x-duo-date`, `host` header, method, and for the
answer request the `txId` header. -/
structure HttpRequest where
  url : String
  authorization : String
  xDate : String
  host : String
  method : String
  txId : Option String
deriving Repr, DecidableEq

/-- One pending challenge (`transaction`) with its `urgid`. -/
structure Transaction where
  urgid : String
deriving Repr, DecidableEq

/-- A decoded JSON value, kept opaque (the core returns it verbatim). -/
structure JsonValue where
  raw : String
deriving Repr, DecidableEq

/-- The decoded `response` field of a challenge-list body, with its optional
`transactions` list; either level may be absent. -/
structure TxBody where
  transactions : Option (List Transaction)
deriving Repr, DecidableEq

/-- Decoded JSON body of the challenge-list reply. -/
structure TxJson where
  response : Option TxBody
deriving Repr, DecidableEq

/-- A challenge-list network response: `ok` is the 2xx flag, `text` the raw
body text, `json` the decoded body. -/
structure TxResponse where
  ok : Bool
  text : String
  json : TxJson
deriving Repr, DecidableEq

/-- An answer-challenge network response: `ok` is the 2xx flag (never read by
the code), `json` the decoded body, `none` when the body is not valid JSON
(then `response.json()` throws). -/
structure ReplyResponse where
  ok : Bool
  json : Option JsonValue
deriving Repr, DecidableEq

/-- The request `getTransactions` sends (lines 60-64). -/
def getTransactionsReq (rsaSign : String → String → List Nat) (time : String)
    (a : Account) : HttpRequest :=
  { url := getTransactionsUrl a,
    authorization := generateSignature rsaSign a "GET" txPath time (txParams a),
    xDate := time, host := a.host, method := "GET", txId := none }

/-- `getTransactions` (lines 56-69) against a network oracle `fetch`: on a
non-2xx response the body text is thrown (`Except.error`), otherwise the
decoded JSON body is returned. -/
def getTransactions (rsaSign : String → String → List Nat) (time : String)
    (fetch : HttpRequest → TxResponse) (a : Account) : Except String TxJson :=
  let response := fetch (getTransactionsReq rsaSign time a)
  if response.ok = false then Except.error response.text
  else Except.ok response.json

/-- The request `reply_transaction` sends (lines 78-82). -/
def replyTransactionReq (rsaSign : String → String → List Nat) (time : String)
    (a : Account) (transaction_id answer : String) : HttpRequest :=
  { url := replyUrl a transaction_id answer,
    authorization := generateSignature rsaSign a "POST" (replyPath transaction_id) time
      (replyParams a answer),
    xDate := time, host := a.host, method := "POST", txId := some transaction_id }

/-- `reply_transaction` (lines 71-84) against a network oracle: the decoded
body is returned whatever the status flag says; only a body that is not valid
JSON throws.  The `ok` field of the response is never consulted. -/
def reply_transaction (rsaSign : String → String → List Nat) (time : String)
    (fetch : HttpRequest → ReplyResponse) (a : Account)
    (transaction_id answer : String) : Except String JsonValue :=
  let response := fetch (replyTransactionReq rsaSign time a transaction_id answer)
  match response.json with
  | some j => Except.ok j
  | none => Except.error "SyntaxError: the body could not be parsed as JSON"

/-- The inner loop of the cron tick (lines 164-167): answer each discovered
challenge with `"approve"`, sequentially; a throw aborts the rest of this
account's challenges. -/
def replyAll (rsaSign : String → String → List Nat) (time : String)
    (reply : HttpRequest → ReplyResponse) (a : Account) :
    List Transaction → Except String (List JsonValue)
  | [] => Except.ok []
  | t :: rest => do
      let j ← reply_transaction rsaSign time reply a t.urgid "approve"
      let js ← replyAll rsaSign time reply a rest
      Except.ok (j :: js)

/-- Processing of one account inside the tick (lines 162-167): fetch the
challenge list, read `json["response"]["transactions"]` (an absent level is a
thrown `TypeError`), then answer every challenge. -/
def processAccount (rsaSign : String → String → List Nat) (time : String)
    (fetch : HttpRequest → TxResponse) (reply : HttpRequest → ReplyResponse)
    (a : Account) : Except String (List JsonValue) := do
  let json ← getTransactions rsaSign time fetch a
  match json.response with
  | none => Except.error "TypeError: cannot read transactions of undefined"
  | some body =>
    match body.transactions with
    | none => Except.error "TypeError: transactions is not iterable"
    | some txs => replyAll rsaSign time reply a txs

/-- The cron tick (lines 158-172): process every account in order; the
`try`/`catch` around each account turns its error into a logged entry and the
loop continues, so the tick itself always returns a plain list. -/
def cronTick (rsaSign : String → String → List Nat) (time : String)
    (fetch : HttpRequest → TxResponse) (reply : HttpRequest → ReplyResponse) :
    List Account → List (Except String (List JsonValue))
  | [] => []
  | a :: rest =>
      processAccount rsaSign time fetch reply a :: cronTick rsaSign time fetch reply rest

/-- First device of the poller-resilience scenario. -/
def devA : Account :=
  { uid := "devA", key := "KA", akey := "AKA", pkey := "PA", code := "CA",
    host := "host-a.example.com" }

/-- Second device of the poller-resilience scenario: its challenge-list call
fails with a non-2xx response. -/
def devB : Account :=
  { uid := "devB", key := "KB", akey := "AKB", pkey := "PB", code := "CB",
    host := "host-b.example.com" }

/-- Third device of the poller-resilience scenario. -/
def devC : Account :=
  { uid := "devC", key := "KC", akey := "AKC", pkey := "PC", code := "CC",
    host := "host-c.example.com" }

/-- Challenge-list oracle of the resilience scenario: the second device gets a
non-2xx response whose body text is the error detail, every other device gets
one pending challenge named after its host. -/
def scenarioFetch : HttpRequest → TxResponse := fun r =>
  if r.host = devB.host then
    { ok := false, text := "HTTP 500: server error", json := { response := none } }
  else
    { ok := true, text := "",
      json := { response := some { transactions := some [{ urgid := "tx-" ++ r.host }] } } }

/-- Answer oracle of the resilience scenario: every answer succeeds and echoes
the challenge id. -/
def scenarioReply : HttpRequest → ReplyResponse := fun r =>
  { ok := true, json := some { raw := "approved:" ++ jsInterp r.txId } }

/-! ## The `/add_account` management endpoint (lines 174-215) -/

/-- The mutable server state: the in-memory `accounts` list and the persisted
`accounts.json` contents, modelled as the list of accounts it holds. -/
structure ServerState where
  accounts : List Account
  file : List Account
deriving Repr, DecidableEq

/-- JavaScript truthiness of a nullable query parameter: `null` and the empty
string are falsy. -/
def jsTruthy : Option String → Bool
  | none => false
  | some s => s ≠ ""

/-- JavaScript strict inequality between the `x-api-key` header (`null` when
absent) and `process.env.API_KEY` (`undefined` when unset): two absent values
still compare unequal, since `null !== undefined`. -/
def apiKeyMismatch : Option String → Option String → Bool
  | some x, some y => x ≠ y
  | _, _ => true

/-- Body of a management-API response. -/
inductive RespBody where
  | message (msg : String)
  | account (a : Account)
deriving Repr, DecidableEq

/-- A management-API response: status code and body. -/
structure ApiResponse where
  status : Nat
  body : RespBody
deriving Repr, DecidableEq

/-- The `POST /add_account` branch of `handle` (lines 198-215), with the
api-key guard of lines 177-179 in front.  `newAcc` is the oracle for the
effectful `newAccount` (activation over the network); the last component of
the result records the `newAccount` calls made, so "activation was never
attempted" is observable.  On success the account is pushed and the whole
account list rewritten to `accounts.json`. -/
def handleAddAccount (newAcc : String → String → Except String Account)
    (envKey reqKey : Option String) (st : ServerState) (uid code : Option String) :
    ApiResponse × ServerState × List (String × String) :=
  if apiKeyMismatch reqKey envKey then
    ({ status := 401, body := .message "Unauthorized!" }, st, [])
  else if jsTruthy uid = false ∨ jsTruthy code = false then
    ({ status := 400, body := .message "Invalid input!" }, st, [])
  else if st.accounts.any (fun a => some a.uid = uid) then
    ({ status := 400,
       body := .message "Account limit reached: maximum of 1 accounts tracking!" }, st, [])
  else
    match uid, code with
    | some u, some c =>
        (match newAcc u c with
          | .ok account =>
              ({ status := 200, body := .account account },
               { accounts := st.accounts ++ [account], file := st.accounts ++ [account] },
               [(u, c)])
          | .error e =>
              ({ status := 400, body := .message e }, st, [(u, c)]))
    | _, _ => ({ status := 400, body := .message "Invalid input!" }, st, [])

/-! ## Properties -/

theorem b64Lookup_b64Char : ∀ n, n < 64 → b64Lookup (b64Char n) = some n := by decide

theorem b64Char_ne_pad : ∀ n, n < 64 → b64Char n ≠ '=' := by decide

/-- Round trip: the lenient decoder inverts the encoder on byte lists. -/
theorem decodeB64_encodeB64 (s : List Nat) (h : ∀ b ∈ s, b < 256) :
    decodeB64 (encodeB64 s) = s := by
  induction s using encodeB64.induct with
  | case1 => rfl
  | case2 b1 =>
      have hb1 : b1 < 256 := h b1 (by simp)
      have h1 : b1 / 4 < 64 := by omega
      have h2 : b1 % 4 * 16 < 64 := by omega
      simp only [encodeB64, decodeB64, collectVals, b64Char_ne_pad _ h1,
        b64Char_ne_pad _ h2, if_neg, reduceIte, b64Lookup_b64Char _ h1,
        b64Lookup_b64Char _ h2, decodeVals]
      congr 1
      omega
  | case3 b1 b2 =>
      have hb1 : b1 < 256 := h b1 (by simp)
      have hb2 : b2 < 256 := h b2 (by simp)
      have h1 : b1 / 4 < 64 := by omega
      have h2 : b1 % 4 * 16 + b2 / 16 < 64 := by omega
      have h3 : b2 % 16 * 4 < 64 := by omega
      simp only [encodeB64, decodeB64, collectVals, b64Char_ne_pad _ h1,
        b64Char_ne_pad _ h2, b64Char_ne_pad _ h3, if_neg, reduceIte,
        b64Lookup_b64Char _ h1, b64Lookup_b64Char _ h2, b64Lookup_b64Char _ h3,
        decodeVals, List.cons.injEq, and_true]
      exact ⟨by omega, by omega⟩
  | case4 b1 b2 b3 rest ih =>
      have hb1 : b1 < 256 := h b1 (by simp)
      have hb2 : b2 < 256 := h b2 (by simp)
      have hb3 : b3 < 256 := h b3 (by simp)
      have hrest : ∀ b ∈ rest, b < 256 := fun b hb => h b (by simp [hb])
      have h1 : b1 / 4 < 64 := by omega
      have h2 : b1 % 4 * 16 + b2 / 16 < 64 := by omega
      have h3 : b2 % 16 * 4 + b3 / 64 < 64 := by omega
      have h4 : b3 % 64 < 64 := by omega
      simp only [encodeB64, decodeB64, collectVals, b64Char_ne_pad _ h1,
        b64Char_ne_pad _ h2, b64Char_ne_pad _ h3, b64Char_ne_pad _ h4, if_neg,
        reduceIte, b64Lookup_b64Char _ h1, b64Lookup_b64Char _ h2,
        b64Lookup_b64Char _ h3, b64Lookup_b64Char _ h4, decodeVals,
        List.cons.injEq]
      exact ⟨by omega, by omega, by omega, ih hrest⟩

theorem dropWhile_append_model (p : Char → Bool) (x y : List Char) :
    List.dropWhile p (x ++ y) =
      if List.dropWhile p x = [] then List.dropWhile p y else List.dropWhile p x ++ y := by
  induction x with
  | nil => simp
  | cons a l ih =>
      by_cases hpa : p a
      · simpa [List.dropWhile, hpa] using ih
      · simp [List.dropWhile, hpa]

theorem stripPad_append (x y : List Char) :
    stripPad (x ++ y) = if stripPad y = [] then stripPad x else x ++ stripPad y := by
  unfold stripPad
  rw [List.reverse_append, dropWhile_append_model]
  by_cases h : List.dropWhile (· = '=') y.reverse = []
  · simp [h]
  · have : ¬((List.dropWhile (· = '=') y.reverse).reverse = []) := by
      simpa using h
    simp [h, this]

theorem stripPad_encodeB64 (s : List Nat) (h : ∀ b ∈ s, b < 256) :
    stripPad (encodeB64 s) = encodeNoPad s := by
  induction s using encodeB64.induct with
  | case1 => rfl
  | case2 b1 =>
      have hb1 : b1 < 256 := h b1 (by simp)
      have h2 : b1 % 4 * 16 < 64 := by omega
      have hc2 : (b64Char (b1 % 4 * 16) = '=') = False := by
        simpa using b64Char_ne_pad _ h2
      simp [encodeB64, encodeNoPad, stripPad, List.dropWhile, hc2]
  | case3 b1 b2 =>
      have hb2 : b2 < 256 := h b2 (by simp)
      have h3 : b2 % 16 * 4 < 64 := by omega
      have hc3 : (b64Char (b2 % 16 * 4) = '=') = False := by
        simpa using b64Char_ne_pad _ h3
      simp [encodeB64, encodeNoPad, stripPad, List.dropWhile, hc3]
  | case4 b1 b2 b3 rest ih =>
      have hb3 : b3 < 256 := h b3 (by simp)
      have hrest : ∀ b ∈ rest, b < 256 := fun b hb => h b (by simp [hb])
      have h4 : b3 % 64 < 64 := by omega
      have hc4 : (b64Char (b3 % 64) = '=') = False := by
        simpa using b64Char_ne_pad _ h4
      show stripPad ([b64Char (b1 / 4), b64Char (b1 % 4 * 16 + b2 / 16),
        b64Char (b2 % 16 * 4 + b3 / 64), b64Char (b3 % 64)] ++ encodeB64 rest) = _
      rw [stripPad_append, ih hrest]
      by_cases hnil : encodeNoPad rest = []
      · have : rest = [] := by
          cases rest with
          | nil => rfl
          | cons a l =>
              exfalso
              cases l with
              | nil => simp [encodeNoPad] at hnil
              | cons a2 l2 =>
                  cases l2 with
                  | nil => simp [encodeNoPad] at hnil
                  | cons a3 l3 => simp [encodeNoPad] at hnil
        subst this
        simp [encodeNoPad, encodeB64, stripPad, List.dropWhile, hc4]
      · simp [hnil, encodeNoPad]

theorem padRestore_cons4 (a b c d : Char) (z : List Char) :
    padRestore (a :: b :: c :: d :: z) = a :: b :: c :: d :: padRestore z := by
  unfold padRestore
  simp only [List.length_cons]
  have hmod : (z.length + 1 + 1 + 1 + 1) % 4 = z.length % 4 := by omega
  rw [hmod]
  by_cases h0 : z.length % 4 = 0
  · simp [h0]
  · simp [h0]

theorem padRestore_encodeNoPad (s : List Nat) :
    padRestore (encodeNoPad s) = encodeB64 s := by
  induction s using encodeB64.induct with
  | case1 => rfl
  | case2 b1 => rfl
  | case3 b1 b2 => rfl
  | case4 b1 b2 b3 rest ih =>
      show padRestore (b64Char (b1 / 4) :: b64Char (b1 % 4 * 16 + b2 / 16) ::
        b64Char (b2 % 16 * 4 + b3 / 64) :: b64Char (b3 % 64) :: encodeNoPad rest) = _
      rw [padRestore_cons4, ih]
      rfl

theorem mem_encodeNoPad (s : List Nat) (h : ∀ b ∈ s, b < 256) :
    ∀ c ∈ encodeNoPad s, ∃ n, n < 64 ∧ c = b64Char n := by
  induction s using encodeB64.induct with
  | case1 => intro c hc; simp [encodeNoPad] at hc
  | case2 b1 =>
      have hb1 : b1 < 256 := h b1 (by simp)
      intro c hc
      simp only [encodeNoPad, List.mem_cons, List.not_mem_nil, or_false] at hc
      rcases hc with rfl | rfl
      · exact ⟨b1 / 4, by omega, rfl⟩
      · exact ⟨b1 % 4 * 16, by omega, rfl⟩
  | case3 b1 b2 =>
      have hb1 : b1 < 256 := h b1 (by simp)
      have hb2 : b2 < 256 := h b2 (by simp)
      intro c hc
      simp only [encodeNoPad, List.mem_cons, List.not_mem_nil, or_false] at hc
      rcases hc with rfl | rfl | rfl
      · exact ⟨b1 / 4, by omega, rfl⟩
      · exact ⟨b1 % 4 * 16 + b2 / 16, by omega, rfl⟩
      · exact ⟨b2 % 16 * 4, by omega, rfl⟩
  | case4 b1 b2 b3 rest ih =>
      have hb1 : b1 < 256 := h b1 (by simp)
      have hb2 : b2 < 256 := h b2 (by simp)
      have hb3 : b3 < 256 := h b3 (by simp)
      have hrest : ∀ b ∈ rest, b < 256 := fun b hb => h b (by simp [hb])
      intro c hc
      simp only [encodeNoPad, List.mem_cons] at hc
      rcases hc with rfl | rfl | rfl | rfl | hc
      · exact ⟨b1 / 4, by omega, rfl⟩
      · exact ⟨b1 % 4 * 16 + b2 / 16, by omega, rfl⟩
      · exact ⟨b2 % 16 * 4 + b3 / 64, by omega, rfl⟩
      · exact ⟨b3 % 64, by omega, rfl⟩
      · exact ih hrest c hc

theorem b64Char_ne_special : ∀ n, n < 64 →
    b64Char n ≠ '-' ∧ b64Char n ≠ '<' ∧ b64Char n ≠ '>' := by decide

theorem splitDash_ne_nil (l : List Char) : splitDash l ≠ [] := by
  induction l with
  | nil => simp [splitDash]
  | cons c rest ih =>
      by_cases hc : c = '-'
      · simp [splitDash, hc]
      · simp only [splitDash, if_neg hc]
        cases hrec : splitDash rest with
        | nil => simp
        | cons g gs => simp

theorem splitDash_of_not_mem (l : List Char) (h : '-' ∉ l) : splitDash l = [l] := by
  induction l with
  | nil => rfl
  | cons c rest ih =>
      have hc : ¬(c = '-') := fun he => h (by simp [he])
      have hrest : '-' ∉ rest := fun hm => h (by simp [hm])
      simp [splitDash, hc, ih hrest]

theorem splitDash_append (a b : List Char) (h : '-' ∉ a) :
    splitDash (a ++ '-' :: b) = a :: splitDash b := by
  induction a with
  | nil => simp [splitDash]
  | cons c rest ih =>
      have hc : ¬(c = '-') := fun he => h (by simp [he])
      have hrest : '-' ∉ rest := fun hm => h (by simp [hm])
      simp only [List.cons_append, splitDash, if_neg hc]
      rw [show rest.append ('-' :: b) = rest ++ '-' :: b from rfl, ih hrest]

theorem asciiOfBytes_map_toNat (s : String) (h : ∀ c ∈ s.data, c.toNat < 128) :
    asciiOfBytes (s.data.map Char.toNat) = s := by
  unfold asciiOfBytes
  rw [List.map_map]
  have hmap : s.data.map ((fun b => Char.ofNat (b % 128)) ∘ Char.toNat) = s.data.map id := by
    apply List.map_congr_left
    intro c hc
    simp [Function.comp, Nat.mod_eq_of_lt (h c hc), Char.ofNat_toNat]
  rw [hmap, List.map_id]

theorem parseCode_roundTrip (pre s : String)
    (hdash : '-' ∉ pre.data) (hlt : '<' ∉ pre.data) (hgt : '>' ∉ pre.data)
    (hascii : ∀ c ∈ s.data, c.toNat < 128) :
    parseCode (pre ++ "-" ++ hostToken s) = .ok (pre, s) := by
  have hbytes : ∀ b ∈ s.data.map Char.toNat, b < 256 := by
    intro b hb
    simp only [List.mem_map] at hb
    obtain ⟨c, hc, rfl⟩ := hb
    have := hascii c hc
    omega
  have htoken : (hostToken s).data = encodeNoPad (s.data.map Char.toNat) := by
    show stripPad (encodeB64 (s.data.map Char.toNat)) = _
    exact stripPad_encodeB64 _ hbytes
  have htchars : ∀ c ∈ (hostToken s).data, ∃ n, n < 64 ∧ c = b64Char n := by
    rw [htoken]
    exact mem_encodeNoPad _ hbytes
  have hnodash : '-' ∉ (hostToken s).data := by
    intro hmem
    obtain ⟨n, hn, he⟩ := htchars _ hmem
    exact (b64Char_ne_special n hn).1 he.symm
  have hdata : (pre ++ "-" ++ hostToken s).data = pre.data ++ '-' :: (hostToken s).data := by
    simp [String.data_append]
  have h1 : stripAngles pre.data = pre.data := by
    apply List.filter_eq_self.mpr
    intro a ha
    have ha1 : ¬(a = '<') := fun he => hlt (he ▸ ha)
    have ha2 : ¬(a = '>') := fun he => hgt (he ▸ ha)
    simp [ha1, ha2]
  have h2 : stripAngles (hostToken s).data = (hostToken s).data := by
    apply List.filter_eq_self.mpr
    intro a ha
    obtain ⟨n, hn, he⟩ := htchars a ha
    have ha1 : ¬(a = '<') := fun hx => (b64Char_ne_special n hn).2.1 (hx ▸ he).symm
    have ha2 : ¬(a = '>') := fun hx => (b64Char_ne_special n hn).2.2 (hx ▸ he).symm
    simp [ha1, ha2]
  unfold parseCode
  rw [hdata, splitDash_append _ _ hdash, splitDash_of_not_mem _ hnodash]
  simp only [List.map_cons, List.map_nil, h1, h2]
  show Except.ok (String.mk pre.data, asciiOfBytes (decodeB64 (padRestore (hostToken s).data))) = _
  rw [htoken, padRestore_encodeNoPad, decodeB64_encodeB64 _ hbytes,
    asciiOfBytes_map_toNat s hascii]

theorem splitDash_length_ge_two (l : List Char) (h : '-' ∈ l) :
    2 ≤ (splitDash l).length := by
  induction l with
  | nil => simp at h
  | cons c rest ih =>
      by_cases hc : c = '-'
      · have h1 : splitDash rest ≠ [] := splitDash_ne_nil rest
        have h2 : 1 ≤ (splitDash rest).length := by
          cases hr : splitDash rest with
          | nil => exact absurd hr h1
          | cons g gs => simp
        simp only [splitDash, if_pos hc, List.length_cons]
        omega
      · have hmem : '-' ∈ rest := by
          rcases List.mem_cons.mp h with he | hm
          · exact absurd he.symm hc
          · exact hm
        have := ih hmem
        simp only [splitDash, if_neg hc]
        cases hr : splitDash rest with
        | nil => exact absurd hr (splitDash_ne_nil rest)
        | cons g gs =>
            rw [hr] at this
            simpa using this

/-- `parseCode` succeeds exactly when the code contains a dash; a host token
that is not valid base64 is decoded leniently, never rejected. -/
theorem parseCode_ok_iff_dash (s : String) :
    (∃ v, parseCode s = .ok v) ↔ '-' ∈ s.data := by
  constructor
  · rintro ⟨v, hv⟩
    by_contra hmem
    unfold parseCode at hv
    rw [splitDash_of_not_mem _ hmem] at hv
    simp at hv
  · intro hmem
    have h2 := splitDash_length_ge_two s.data hmem
    unfold parseCode
    cases hsd : splitDash s.data with
    | nil => exact absurd hsd (splitDash_ne_nil _)
    | cons g gs =>
        cases gs with
        | nil => rw [hsd] at h2; simp at h2
        | cons g2 gs2 => simp

/-- C1: for timestamp `Mon, 01 Jan 2024 00:00:00 -0000`, method `GET`, device
host `API-HOST.example.com`, path `/push/v2/device/transactions` and the
parameter set `akey=AK1, fips_status=1, hsm_status=true, pkpush=rsa-sha512`
in that insertion order, the canonical message built by `generateSignature`
is exactly the five stated lines joined by `\n`. -/
theorem canonicalMessage_example_exact :
    canonicalMessage exampleAccount "GET" "/push/v2/device/transactions"
      "Mon, 01 Jan 2024 00:00:00 -0000"
      [("akey", "AK1"), ("fips_status", "1"), ("hsm_status", "true"), ("pkpush", "rsa-sha512")]
    = "Mon, 01 Jan 2024 00:00:00 -0000" ++ "\n" ++ "GET" ++ "\n" ++ "api-host.example.com"
      ++ "\n" ++ "/push/v2/device/transactions" ++ "\n"
      ++ "akey=AK1&fips_status=1&hsm_status=true&pkpush=rsa-sha512" := by decide

/-- C2 counterexample: `generateSignature` uses the method string exactly as
passed, so for the lowercase method `"get"` the second line of the canonical
message is `"get"`, not the uppercase `"GET"` the claim demands. -/
theorem canonicalMessage_method_as_passed :
    canonicalMessage exampleAccount "get" "/p" "T" [("a", "1")]
        = "T" ++ "\n" ++ "get" ++ "\n" ++ "api-host.example.com" ++ "\n" ++ "/p" ++ "\n" ++ "a=1"
    ∧ canonicalMessage exampleAccount "get" "/p" "T" [("a", "1")]
        ≠ "T" ++ "\n" ++ "GET" ++ "\n" ++ "api-host.example.com" ++ "\n" ++ "/p" ++ "\n" ++ "a=1" := by
  exact ⟨by decide, by decide⟩

/-- C2 (amended): for every timestamp, method, host, path and parameter set,
the canonical message is the five lines `timestamp`, `method` (exactly as
passed by the caller; every call site passes it already uppercase), the
lower-cased host, the path and the url-encoded query string over the
parameter list in insertion order, joined by `\n`; and the query string
keeps insertion order rather than sorting. -/
theorem canonicalMessage_five_lines (account : Account) (method path time : String)
    (data : List (String × String)) :
    canonicalMessage account method path time data
        = String.intercalate "\n"
            [time, method, lowerString account.host, path, serializeParams data]
    ∧ serializeParams [("b", "2"), ("a", "1")] = "b=2&a=1" := by
  constructor
  · simp [canonicalMessage, String.intercalate, String.intercalate.go, String.append_assoc]
  · decide

/-- C3: for every account, timestamp, transaction id and answer, the
query-string line signed in the canonical message of the challenge-list
request and of the answer-challenge request is byte-for-byte the query string
appended after `?` in the URL each request actually sends. -/
theorem signed_query_matches_sent_query (a : Account) (time transaction_id answer : String) :
    ∃ qGet qPost : String,
      canonicalMessage a "GET" txPath time (txParams a)
          = time ++ "\n" ++ "GET" ++ "\n" ++ lowerString a.host ++ "\n" ++ txPath ++ "\n" ++ qGet
      ∧ getTransactionsUrl a = "https://" ++ a.host ++ txPath ++ "?" ++ qGet
      ∧ canonicalMessage a "POST" (replyPath transaction_id) time (replyParams a answer)
          = time ++ "\n" ++ "POST" ++ "\n" ++ lowerString a.host ++ "\n"
            ++ replyPath transaction_id ++ "\n" ++ qPost
      ∧ replyUrl a transaction_id answer
          = "https://" ++ a.host ++ replyPath transaction_id ++ "?" ++ qPost := by
  exact ⟨serializeParams (txParams a), serializeParams (replyParams a answer),
    rfl, rfl, rfl, rfl⟩

/-- C4: signing is deterministic — two `generateSignature` calls over the same
(pure, hence deterministic, as RSA PKCS#1 v1.5 is) signing primitive with
identical account, method, path, timestamp and parameter set produce an
identical authorization header value. -/
theorem generateSignature_deterministic (rsaSign : String → String → List Nat)
    (a1 a2 : Account) (m1 m2 p1 p2 t1 t2 : String) (d1 d2 : List (String × String))
    (ha : a1 = a2) (hm : m1 = m2) (hp : p1 = p2) (ht : t1 = t2) (hd : d1 = d2) :
    generateSignature rsaSign a1 m1 p1 t1 d1 = generateSignature rsaSign a2 m2 p2 t2 d2 := by
  subst ha hm hp ht hd
  rfl

/-- Witness for C4 at a concrete signing primitive and concrete inputs. -/
theorem generateSignature_deterministic_witness :
    generateSignature (fun _ _ => [7, 3]) exampleAccount "GET" txPath "T" (txParams exampleAccount)
      = generateSignature (fun _ _ => [7, 3]) exampleAccount "GET" txPath "T"
          (txParams exampleAccount) :=
  generateSignature_deterministic (fun _ _ => [7, 3]) exampleAccount exampleAccount
    "GET" "GET" txPath txPath "T" "T" (txParams exampleAccount) (txParams exampleAccount)
    rfl rfl rfl rfl rfl

/-- C6 counterexample: `"????"` is not valid base64, yet `parseCode` succeeds
on `"AB-????"` — Node's lenient decoder ignores the invalid characters and
yields the empty host — where the claim demands a `CodeFormatError`. -/
theorem parseCode_invalid_base64_succeeds :
    parseCode "AB-????" = Except.ok ("AB", "") := by rfl

/-- C6 (amended): `parseCode` fails exactly when the input lacks the `-`
separator (and then with a thrown `TypeError` from reading `.length` of the
`undefined` host token, not a dedicated error type); a host token that is not
valid base64 never causes a failure, because `Buffer.from(h, "base64")`
decodes leniently, skipping characters outside the alphabet. -/
theorem parseCode_ok_iff_has_dash (s : String) :
    (∃ v, parseCode s = Except.ok v) ↔ '-' ∈ s.data :=
  parseCode_ok_iff_dash s

/-- C5 counterexample: on the reply `{"status":"FAIL","message":"invalid
code"}` the activation check does fail, but the error message is
`"Failed to activate account: invalid code"`, not exactly `"invalid code"`. -/
theorem activation_failure_message_not_bare :
    newAccountStatusCheck failReply = Except.error "Failed to activate account: invalid code"
    ∧ newAccountStatusCheck failReply ≠ Except.error "invalid code" := by
  refine ⟨rfl, fun h => ?_⟩
  rw [show newAccountStatusCheck failReply
      = Except.error "Failed to activate account: invalid code" from rfl] at h
  exact absurd (Except.error.inj h) (by decide)

/-- C5 (amended): on the reply `{"status":"FAIL","message":"invalid code"}`
activation fails — the code checks the `stat` field, which is absent, so the
check cannot pass — and the error carries the service message prefixed by the
template `Failed to activate account: `. -/
theorem activation_failure_surfaces_prefixed_message :
    newAccountStatusCheck failReply
      = Except.error "Failed to activate account: invalid code" := rfl

/-- C7: for every ASCII host `s`, if the host token is the base64 encoding of
`s` with the trailing `=` padding stripped, then `parseCode` on a code made of
a bracketless, dashless short code, a dash and that token restores the
padding, decodes, and returns the short code with host exactly `s`. -/
theorem parseCode_restores_padding_roundTrip (pre s : String)
    (hdash : '-' ∉ pre.data) (hlt : '<' ∉ pre.data) (hgt : '>' ∉ pre.data)
    (hascii : ∀ c ∈ s.data, c.toNat < 128) :
    parseCode (pre ++ "-" ++ hostToken s) = Except.ok (pre, s) :=
  parseCode_roundTrip pre s hdash hlt hgt hascii

/-- Witness for C7 at the spec's example: `SGVsbG8` is `base64("Hello")` with
padding stripped, and `parseCode "ABCDEFGH-SGVsbG8"` yields host `"Hello"`. -/
theorem parseCode_restores_padding_roundTrip_witness :
    parseCode "ABCDEFGH-SGVsbG8" = Except.ok ("ABCDEFGH", "Hello") := by
  have h := parseCode_restores_padding_roundTrip "ABCDEFGH" "Hello"
    (by decide) (by decide) (by decide) (by decide)
  rw [show ("ABCDEFGH" ++ "-" ++ hostToken "Hello" : String) = "ABCDEFGH-SGVsbG8" by decide] at h
  exact h

/-- C8: the tick is total and processes the accounts independently and in
order — it equals the per-account processing mapped over the account list, so
one account's error (captured as a logged entry, carrying the non-2xx body
text as detail) never aborts the others; in the concrete three-device
scenario where the second device's challenge-list call is non-2xx, the first
and third devices are still fully processed and their challenges approved. -/
theorem cronTick_resilient :
    (∀ (rsaSign : String → String → List Nat) (time : String)
        (fetch : HttpRequest → TxResponse) (reply : HttpRequest → ReplyResponse)
        (accounts : List Account),
      cronTick rsaSign time fetch reply accounts
        = accounts.map (processAccount rsaSign time fetch reply))
    ∧ cronTick (fun _ _ => []) "T" scenarioFetch scenarioReply [devA, devB, devC]
        = [Except.ok [{ raw := "approved:tx-host-a.example.com" }],
           Except.error "HTTP 500: server error",
           Except.ok [{ raw := "approved:tx-host-c.example.com" }]] := by
  constructor
  · intro rsaSign time fetch reply accounts
    induction accounts with
    | nil => rfl
    | cons a rest ih => simp only [cronTick, ih, List.map_cons]
  · rfl

/-- C9 counterexample: a non-2xx answer-challenge response whose body is JSON
is not surfaced as an error — `reply_transaction` returns the decoded body,
because the code never checks `response.ok`. -/
theorem reply_transaction_non2xx_returns_body :
    reply_transaction (fun _ _ => []) "T"
      (fun _ => { ok := false, json := some { raw := "denied" } })
      exampleAccount "tx1" "approve"
      = Except.ok { raw := "denied" } := rfl

/-- C9 (amended): for every signing primitive, timestamp, account, challenge
id and answer, when the answer-challenge response has a JSON body,
`reply_transaction` returns that decoded body to its caller even when the
response status is non-2xx; only a network failure or a non-JSON body
surfaces as an error. -/
theorem reply_transaction_returns_decoded_body (rsaSign : String → String → List Nat)
    (time : String) (a : Account) (transaction_id answer : String) (j : JsonValue) :
    reply_transaction rsaSign time (fun _ => { ok := false, json := some j })
        a transaction_id answer = Except.ok j
    ∧ reply_transaction rsaSign time (fun _ => { ok := true, json := some j })
        a transaction_id answer = Except.ok j
    ∧ reply_transaction rsaSign time (fun _ => { ok := false, json := none })
        a transaction_id answer
        = Except.error "SyntaxError: the body could not be parsed as JSON" :=
  ⟨rfl, rfl, rfl⟩

/-- C10: if an account with the requested uid is already in the account list,
an authorized `POST /add_account` returns status 400, never calls
`newAccount` (no activation attempt), and leaves both the in-memory account
list and the persisted file unchanged. -/
theorem addAccount_duplicate_uid_rejected (newAcc : String → String → Except String Account)
    (k : String) (st : ServerState) (u : String) (code : Option String) (a : Account)
    (hmem : a ∈ st.accounts) (huid : a.uid = u) :
    (handleAddAccount newAcc (some k) (some k) st (some u) code).1.status = 400
    ∧ (handleAddAccount newAcc (some k) (some k) st (some u) code).2.1 = st
    ∧ (handleAddAccount newAcc (some k) (some k) st (some u) code).2.2 = [] := by
  have hkey : apiKeyMismatch (some k) (some k) = false := by
    simp [apiKeyMismatch]
  unfold handleAddAccount
  rw [hkey]
  by_cases htruthy : jsTruthy (some u) = false ∨ jsTruthy code = false
  · simp [htruthy]
  · have hex : ∃ x ∈ st.accounts, x.uid = u := ⟨a, hmem, huid⟩
    simp [htruthy, hex]

/-- Witness for C10: a concrete state already tracking uid `user-1`, a fresh
activation oracle, and a duplicate `add_account` request. -/
theorem addAccount_duplicate_uid_rejected_witness :
    (handleAddAccount (fun _ _ => Except.error "never called") (some "secret") (some "secret")
        { accounts := [exampleAccount], file := [exampleAccount] }
        (some "user-1") (some "SOMECODE")).1.status = 400
    ∧ (handleAddAccount (fun _ _ => Except.error "never called") (some "secret") (some "secret")
        { accounts := [exampleAccount], file := [exampleAccount] }
        (some "user-1") (some "SOMECODE")).2.1
        = { accounts := [exampleAccount], file := [exampleAccount] }
    ∧ (handleAddAccount (fun _ _ => Except.error "never called") (some "secret") (some "secret")
        { accounts := [exampleAccount], file := [exampleAccount] }
        (some "user-1") (some "SOMECODE")).2.2 = [] :=
  addAccount_duplicate_uid_rejected (fun _ _ => Except.error "never called") "secret"
    { accounts := [exampleAccount], file := [exampleAccount] }
    "user-1" (some "SOMECODE") exampleAccount (by decide) rfl

end AutoDuo
